import Mathlib

/-!
# clusterctl/clusterdeployer/minikube: the minikube adapter

A shallow embedding of `minikube.go` and a verification of its behaviour.

Modelling conventions.

* A Go `string` is a finite sequence of bytes: `GoString := List UInt8`.  String
  literals of the source are written `go "..."` (their UTF-8 encoding).
* A Go `error` is a value of `GoError`; the nil error is `none : Option GoError`.
* The package talks to the outside world through `os.Environ`, `os.Remove`,
  `ioutil.ReadFile` and the injected `minikubeExec` function.  The world is an
  arbitrary type `ω`; the `os` calls are the fields of `OS ω`, the injected function
  is a field of `Minikube ω`.  All of them may read and change the world; they are
  total functions (an injected function that panics or does not return is outside the
  model).
* Every call with an effect on the outside world is recorded, in order, in a trace of
  `Event`s, together with what it returned.
* A run-time panic (nil pointer dereference) ends the run with `Outcome.panicked`.
* The standard-library functions used by the source (`strings.Replace`,
  `strings.Join`, `fmt.Sprintf`, `url.Parse`, `(*URL).Hostname`) are not part of the
  repository; they are modelled below after the Go 1.10 standard library, the
  toolchain generation the source was written for.
-/

namespace Clusterctl

/-! ## Go strings -/

/-- A Go string: a sequence of bytes. -/
abbrev GoString := List UInt8

/-- The Go string denoted by a source literal: its UTF-8 bytes. -/
def go (s : String) : GoString := s.toUTF8.data.toList

/-- The byte of an ASCII character literal. -/
def byte (c : Char) : UInt8 := c.toNat.toUInt8

/-! ## Go errors -/

/-- Go error values.  Messages built by `fmt.Errorf` are kept symbolic: the format
string and its operands. -/
inductive GoError where
  /-- Result of `errors.New msg`. -/
  | errorsNew (msg : GoString)
  /-- Result of `fmt.Errorf format strs...` with string operands only. -/
  | errorf (format : GoString) (strs : List GoString)
  /-- Result of `fmt.Errorf format strs... err`: string operands followed by an error. -/
  | errorfErr (format : GoString) (strs : List GoString) (err : GoError)
  /-- Value of type `url.EscapeError`. -/
  | EscapeError (s : GoString)
  /-- Value of type `url.InvalidHostError`. -/
  | InvalidHostError (s : GoString)
  /-- Value of type `*url.Error`. -/
  | urlError (Op URL : GoString) (Err : GoError)
  /-- Any other error value, e.g. one produced by the operating system or by an
  injected function. -/
  | other (kind : Nat) (msg : GoString)
  deriving DecidableEq, Repr

/-! ## package strings -/

namespace strings

/-- Model of `strings.Index s sep`: the index of the first instance of `sep` in `s`,
`none` for Go's `-1`. -/
def Index : GoString → GoString → Option Nat
  | [], sep => if sep = [] then some 0 else none
  | c :: t, sep =>
    if sep.isPrefixOf (c :: t) then some 0 else (Index t sep).map (· + 1)

/-- Model of `strings.LastIndex s sep`. -/
def LastIndex : GoString → GoString → Option Nat
  | [], sep => if sep = [] then some 0 else none
  | c :: t, sep =>
    match LastIndex t sep with
    | some i => some (i + 1)
    | none => if sep.isPrefixOf (c :: t) then some 0 else none

/-- Model of `strings.IndexByte s c`. -/
def IndexByte : GoString → UInt8 → Option Nat
  | [], _ => none
  | b :: t, c => if b = c then some 0 else (IndexByte t c).map (· + 1)

/-- Model of `strings.Contains s substr`. -/
def Contains (s substr : GoString) : Bool := (Index s substr).isSome

/-- Model of `strings.HasPrefix s p`. -/
def HasPrefix (s p : GoString) : Bool := p.isPrefixOf s

/-- Model of `strings.HasSuffix s p`. -/
def HasSuffix (s p : GoString) : Bool := p.isSuffixOf s

/-- Model of `strings.TrimPrefix s p`. -/
def TrimPrefix (s p : GoString) : GoString :=
  if HasPrefix s p then s.drop p.length else s

/-- Model of `strings.Count s substr` for a one-byte `substr`. -/
def CountByte (s : GoString) (c : UInt8) : Nat := s.count c

/-- Model of `strings.ToLower` on ASCII letters (other bytes are kept). -/
def ToLower (s : GoString) : GoString :=
  s.map fun c => if byte 'A' ≤ c ∧ c ≤ byte 'Z' then c + (byte 'a' - byte 'A') else c

/-- Model of `strings.Join a sep`. -/
def Join : List GoString → GoString → GoString
  | [], _ => []
  | [a], _ => a
  | a :: b :: rest, sep => a ++ sep ++ Join (b :: rest) sep

/-- The replacement loop of `strings.Replace`: at most `n` times, copy up to the next
instance of `old`, write `new`, and continue after the instance. -/
def Replace.loop (old new : GoString) : Nat → GoString → GoString
  | 0, s => s
  | n + 1, s =>
    match Index s old with
    | none => s
    | some j => s.take j ++ new ++ Replace.loop old new n (s.drop (j + old.length))

/-- Model of `strings.Replace s old new n` for a non-empty `old`: the first `n`
non-overlapping instances of `old` are replaced by `new`; all of them when `n < 0`.
(With an empty `old` Go inserts `new` at rune boundaries; the source never does
that, and this model then returns `s`.) -/
def Replace (s old new : GoString) (n : Int) : GoString :=
  if old = new ∨ n = 0 ∨ old = [] then s
  else Replace.loop old new (if n < 0 then s.length else n.toNat) s

end strings

/-! ## package fmt -/

namespace fmt

/-- Model of `fmt.Sprintf format a...` for string operands and formats whose only
verbs are `%v` and `%s`, both of which print a string operand as it is.  The other
bytes of the format are copied.  (The source always passes as many operands as the
format has verbs.) -/
def Sprintf : GoString → List GoString → GoString
  | [], _ => []
  | [c], _ => [c]
  | c :: d :: rest, a =>
    if c = byte '%' ∧ (d = byte 'v' ∨ d = byte 's') then
      match a with
      | [] => go "%!" ++ [d] ++ go "(MISSING)" ++ Sprintf rest []
      | x :: a => x ++ Sprintf rest a
    else c :: Sprintf (d :: rest) a

end fmt

/-! ## package net/url -/

namespace url

/-- The type `url.Userinfo`. -/
structure Userinfo where
  username : GoString
  password : GoString
  passwordSet : Bool
  deriving DecidableEq, Repr

/-- The type `url.URL`, without `RawPath` (an encoding hint computed from `Path`,
which plays no part in whether parsing succeeds). -/
structure URL where
  Scheme : GoString := []
  Opaque : GoString := []
  User : Option Userinfo := none
  Host : GoString := []
  Path : GoString := []
  ForceQuery : Bool := false
  RawQuery : GoString := []
  Fragment : GoString := []
  deriving DecidableEq, Repr

/-- The escaping modes of package url. -/
inductive encoding where
  | encodePath
  | encodePathSegment
  | encodeHost
  | encodeZone
  | encodeUserPassword
  | encodeQueryComponent
  | encodeFragment
  deriving DecidableEq, Repr

open encoding

/-- Model of `ishex`. -/
def ishex (c : UInt8) : Bool :=
  (byte '0' ≤ c ∧ c ≤ byte '9') ∨ (byte 'a' ≤ c ∧ c ≤ byte 'f') ∨ (byte 'A' ≤ c ∧ c ≤ byte 'F')

/-- Model of `unhex`. -/
def unhex (c : UInt8) : UInt8 :=
  if byte '0' ≤ c ∧ c ≤ byte '9' then c - byte '0'
  else if byte 'a' ≤ c ∧ c ≤ byte 'f' then c - byte 'a' + 10
  else if byte 'A' ≤ c ∧ c ≤ byte 'F' then c - byte 'A' + 10
  else 0

/-- Model of `shouldEscape c mode`: whether the byte must be escaped when it appears
in the given part of a URL. -/
def shouldEscape (c : UInt8) (mode : encoding) : Bool :=
  if (byte 'A' ≤ c ∧ c ≤ byte 'Z') ∨ (byte 'a' ≤ c ∧ c ≤ byte 'z') ∨ (byte '0' ≤ c ∧ c ≤ byte '9') then
    false
  else if (mode = encodeHost ∨ mode = encodeZone) ∧ c ∈ go "!$&\x27()*+,;=:[]<>\"" then
    false
  else if c ∈ go "-_.~" then
    false
  else if c ∈ go "$&+,/:;=?@" then
    match mode with
    | encodePath => c = byte '?'
    | encodePathSegment => c = byte '/' ∨ c = byte ';' ∨ c = byte ',' ∨ c = byte '?'
    | encodeUserPassword => c = byte '@' ∨ c = byte '/' ∨ c = byte '?' ∨ c = byte ':'
    | encodeQueryComponent => true
    | encodeFragment => false
    | _ => true
  else
    true

/-- First pass of `unescape`: count the `%` escapes and check that they are well
formed; the result is `(n, hasPlus)` or the error `unescape` returns. -/
def unescape.check (mode : encoding) : GoString → Nat → Bool → Except GoError (Nat × Bool)
  | [], n, hasPlus => .ok (n, hasPlus)
  | c :: rest, n, hasPlus =>
    if c = byte '%' then
      match rest with
      | h1 :: h2 :: rest2 =>
        if !ishex h1 || !ishex h2 then
          .error (.EscapeError ((c :: rest).take 3))
        else if mode = encodeHost ∧ unhex h1 < 8 ∧ [c, h1, h2] ≠ go "%25" then
          .error (.EscapeError [c, h1, h2])
        else if mode = encodeZone ∧ [c, h1, h2] ≠ go "%25"
            ∧ (unhex h1 <<< 4 ||| unhex h2) ≠ byte ' '
            ∧ shouldEscape (unhex h1 <<< 4 ||| unhex h2) encodeHost then
          .error (.EscapeError [c, h1, h2])
        else
          unescape.check mode rest2 (n + 1) hasPlus
      | _ => .error (.EscapeError ((c :: rest).take 3))
    else if c = byte '+' then
      unescape.check mode rest n (mode = encodeQueryComponent)
    else if (mode = encodeHost ∨ mode = encodeZone) ∧ c < 0x80 ∧ shouldEscape c encodeHost then
      .error (.InvalidHostError [c])
    else
      unescape.check mode rest n hasPlus

/-- Second pass of `unescape`: decode the `%XX` escapes (and `+` in query mode) of a
string that passed the first pass. -/
def unescape.decode (mode : encoding) : GoString → GoString
  | [] => []
  | c :: rest =>
    if c = byte '%' then
      match rest with
      | h1 :: h2 :: rest2 => (unhex h1 <<< 4 ||| unhex h2) :: unescape.decode mode rest2
      | _ => []
    else if c = byte '+' then
      (if mode = encodeQueryComponent then byte ' ' else byte '+') :: unescape.decode mode rest
    else
      c :: unescape.decode mode rest

/-- Model of `unescape s mode`. -/
def unescape (s : GoString) (mode : encoding) : Except GoError GoString :=
  match unescape.check mode s 0 false with
  | .error e => .error e
  | .ok (n, hasPlus) => if n = 0 ∧ !hasPlus then .ok s else .ok (unescape.decode mode s)

/-- Model of `split s c cutc`: split `s` at the first instance of `c`; with `cutc` the
instance itself is dropped. -/
def split (s c : GoString) (cutc : Bool) : GoString × GoString :=
  match strings.Index s c with
  | none => (s, [])
  | some i => if cutc then (s.take i, s.drop (i + c.length)) else (s.take i, s.drop i)

/-- The loop of `getscheme`, at byte index `i` of `rawurl`, with the bytes from `i`
on as third argument. -/
def getscheme.loop (rawurl : GoString) : Nat → GoString → Except GoError (GoString × GoString)
  | _, [] => .ok ([], rawurl)
  | i, c :: rest =>
    if (byte 'a' ≤ c ∧ c ≤ byte 'z') ∨ (byte 'A' ≤ c ∧ c ≤ byte 'Z') then
      getscheme.loop rawurl (i + 1) rest
    else if (byte '0' ≤ c ∧ c ≤ byte '9') ∨ c = byte '+' ∨ c = byte '-' ∨ c = byte '.' then
      if i = 0 then .ok ([], rawurl) else getscheme.loop rawurl (i + 1) rest
    else if c = byte ':' then
      if i = 0 then .error (.errorsNew (go "missing protocol scheme"))
      else .ok (rawurl.take i, rawurl.drop (i + 1))
    else
      .ok ([], rawurl)

/-- Model of `getscheme rawurl`: `(scheme, path)`, or an error when the string starts
with a colon. -/
def getscheme (rawurl : GoString) : Except GoError (GoString × GoString) :=
  getscheme.loop rawurl 0 rawurl

/-- Model of `validOptionalPort port`: `port` is empty or `:` followed by digits. -/
def validOptionalPort : GoString → Bool
  | [] => true
  | c :: digits => c = byte ':' ∧ digits.all fun b => !(b < byte '0' || b > byte '9')

/-- Model of `validUserinfo s`. -/
def validUserinfo (s : GoString) : Bool :=
  s.all fun r =>
    (byte 'A' ≤ r ∧ r ≤ byte 'Z') ∨ (byte 'a' ≤ r ∧ r ≤ byte 'z') ∨ (byte '0' ≤ r ∧ r ≤ byte '9')
      ∨ r ∈ go "-._:~!$&\x27()*+,;=%@"

/-- Model of `parseHost host`. -/
def parseHost (host : GoString) : Except GoError GoString :=
  let plain : Except GoError GoString := unescape host encodeHost
  if strings.HasPrefix host (go "[") then
    match strings.LastIndex host (go "]") with
    | none => .error (.errorsNew (go "missing \x27]\x27 in host"))
    | some i =>
      let colonPort := host.drop (i + 1)
      if !validOptionalPort colonPort then
        .error (.errorf (go "invalid port %q after host") [colonPort])
      else
        match strings.Index (host.take i) (go "%25") with
        | some zone =>
          match unescape (host.take zone) encodeHost with
          | .error e => .error e
          | .ok host1 =>
            match unescape ((host.take i).drop zone) encodeZone with
            | .error e => .error e
            | .ok host2 =>
              match unescape (host.drop i) encodeHost with
              | .error e => .error e
              | .ok host3 => .ok (host1 ++ host2 ++ host3)
        | none => plain
  else plain

/-- Model of `parseAuthority authority`: `(user, host)`. -/
def parseAuthority (authority : GoString) : Except GoError (Option Userinfo × GoString) :=
  let i := strings.LastIndex authority (go "@")
  let hostPart := match i with
    | none => authority
    | some i => authority.drop (i + 1)
  match parseHost hostPart with
  | .error e => .error e
  | .ok host =>
    match i with
    | none => .ok (none, host)
    | some i =>
      let userinfo := authority.take i
      if !validUserinfo userinfo then
        .error (.errorsNew (go "net/url: invalid userinfo"))
      else if !strings.Contains userinfo (go ":") then
        match unescape userinfo encodeUserPassword with
        | .error e => .error e
        | .ok userinfo => .ok (some ⟨userinfo, [], false⟩, host)
      else
        let up := split userinfo (go ":") true
        match unescape up.1 encodeUserPassword with
        | .error e => .error e
        | .ok username =>
          match unescape up.2 encodeUserPassword with
          | .error e => .error e
          | .ok password => .ok (some ⟨username, password, true⟩, host)

/-- Last part of `parse`: the authority, if the rest starts with `//`, then the
path. -/
def parse.authorityAndPath (url : URL) (rest : GoString) (viaRequest : Bool) :
    Except GoError URL :=
  let setPath (url : URL) (p : GoString) : Except GoError URL :=
    match unescape p encodePath with
    | .error e => .error e
    | .ok path => .ok { url with Path := path }
  if (url.Scheme ≠ [] ∨ (!viaRequest ∧ !strings.HasPrefix rest (go "///")))
      ∧ strings.HasPrefix rest (go "//") then
    let ar := split (rest.drop 2) (go "/") false
    match parseAuthority ar.1 with
    | .error e => .error e
    | .ok (user, host) => setPath { url with User := user, Host := host } ar.2
  else
    setPath url rest

/-- Model of `parse rawurl viaRequest`. -/
def parse (rawurl : GoString) (viaRequest : Bool) : Except GoError URL :=
  if rawurl = [] ∧ viaRequest then
    .error (.errorsNew (go "empty url"))
  else if rawurl = go "*" then
    .ok { Path := go "*" }
  else
    match getscheme rawurl with
    | .error e => .error e
    | .ok (scheme, rest) =>
      let url : URL := { Scheme := strings.ToLower scheme }
      let rq : GoString × URL :=
        if strings.HasSuffix rest (go "?") ∧ strings.CountByte rest (byte '?') = 1 then
          (rest.take (rest.length - 1), { url with ForceQuery := true })
        else
          ((split rest (go "?") true).1, { url with RawQuery := (split rest (go "?") true).2 })
      let rest := rq.1
      let url := rq.2
      if !strings.HasPrefix rest (go "/") then
        if url.Scheme ≠ [] then
          .ok { url with Opaque := rest }
        else if viaRequest then
          .error (.errorsNew (go "invalid URI for request"))
        else
          match strings.Index rest (go ":"), strings.Index rest (go "/") with
          | some _, none =>
            .error (.errorsNew (go "first path segment in URL cannot contain colon"))
          | some colon, some slash =>
            if colon < slash then
              .error (.errorsNew (go "first path segment in URL cannot contain colon"))
            else parse.authorityAndPath url rest viaRequest
          | none, _ => parse.authorityAndPath url rest viaRequest
      else
        parse.authorityAndPath url rest viaRequest

/-- Model of `url.Parse rawurl`, returning Go's pair `(*URL, error)`: either a URL and
the nil error, or the nil pointer and an error of type `*url.Error`. -/
def Parse (rawurl : GoString) : Option URL × Option GoError :=
  let uf := split rawurl (go "#") true
  match parse uf.1 false with
  | .error err => (none, some (.urlError (go "parse") uf.1 err))
  | .ok url =>
    if uf.2 = [] then (some url, none)
    else
      match unescape uf.2 encodeFragment with
      | .error err => (none, some (.urlError (go "parse") rawurl err))
      | .ok frag => (some { url with Fragment := frag }, none)

/-- Model of `stripPort hostport`: the host without a trailing `:port`, and without
the brackets of an IPv6 literal. -/
def stripPort (hostport : GoString) : GoString :=
  match strings.IndexByte hostport (byte ':') with
  | none => hostport
  | some colon =>
    match strings.IndexByte hostport (byte ']') with
    | some i => strings.TrimPrefix (hostport.take i) (go "[")
    | none => hostport.take colon

/-- Model of `(*URL).Hostname` on a non-nil receiver. -/
def URL.Hostname (u : URL) : GoString := stripPort u.Host

end url

/-! ## The outside world -/

/-- The operating-system and process calls used by the package, as functions of the
state `ω` of the outside world. -/
structure OS (ω : Type) where
  /-- Model of `os.Environ()`: the environment of the current process, as `key=value` entries. -/
  Environ : ω → List GoString
  /-- Model of `os.Remove name`: the error (nil on success) and the new state. -/
  Remove : GoString → ω → Option GoError × ω
  /-- Model of `ioutil.ReadFile filename`: bytes read, error, new state. -/
  ReadFile : GoString → ω → (GoString × Option GoError) × ω
  /-- Model of `exec.Command(name, args...)` with `cmd.Env = env`, then
  `cmd.CombinedOutput()`: output, error, new state. -/
  CombinedOutput : GoString → List GoString → List GoString → ω → (GoString × Option GoError) × ω

/-- A call that leaves the package, with what it returned. -/
inductive Event where
  /-- A call `glog.Error(msg)`. -/
  | glogError (msg : GoString)
  /-- A call `m.minikubeExec(env, args...)` that returned `(out, err)`. -/
  | minikubeExec (env args : List GoString) (out : GoString) (err : Option GoError)
  /-- A call `os.Remove(name)` that returned `err`. -/
  | Remove (name : GoString) (err : Option GoError)
  /-- A call `ioutil.ReadFile(filename)` that returned `(data, err)`. -/
  | ReadFile (filename : GoString) (data : GoString) (err : Option GoError)
  deriving DecidableEq, Repr

/-- The argument list of an execution call, `none` for the other events. -/
def Event.execArgs : Event → Option (List GoString)
  | .minikubeExec _ args _ _ => some args
  | _ => none

/-- The environment of an execution call, `none` for the other events. -/
def Event.execEnv : Event → Option (List GoString)
  | .minikubeExec env _ _ _ => some env
  | _ => none

/-- Whether the event is a call of the injected execution function. -/
def Event.isExec : Event → Bool
  | .minikubeExec _ _ _ _ => true
  | _ => false

/-- How a function that can panic ends. -/
inductive Outcome (α : Type) where
  /-- The function returned the value `a`. -/
  | returned (a : α)
  /-- The function panicked (here: nil pointer dereference). -/
  | panicked
  deriving DecidableEq, Repr

/-- A run of a function of the package: the state of the world afterwards, the calls
it made, and its result. -/
structure Run (ω α : Type) where
  world : ω
  trace : List Event
  result : α

/-! ## minikube.go -/

/-- The struct `Minikube`. -/
structure Minikube (ω : Type) where
  kubeconfigpath : GoString
  vmDriver : GoString
  proxy : GoString
  /-- The field `minikubeExec func(env []string, args ...string) (string, error)`. -/
  minikubeExec : List GoString → List GoString → ω → (GoString × Option GoError) × ω

/-- The package-level function value `minikubeExec`: run the `minikube` executable
with the given environment and wrap its error.  (The `glog.V(n).Infof` tracing is
not modelled.) -/
def minikubeExec {ω : Type} (os : OS ω) (env args : List GoString) (w : ω) :
    (GoString × Option GoError) × ω :=
  let executable := go "minikube"
  let r := os.CombinedOutput executable args env w
  let err := match r.1.2 with
    | some err => some (GoError.errorfErr (go "error running command \x27%v %v\x27: %v")
        [executable, strings.Join args (go " ")] err)
    | none => none
  ((r.1.1, err), r.2)

/-- The function `New`. -/
def New {ω : Type} (os : OS ω) (vmDriver proxy : GoString) : Minikube ω :=
  { minikubeExec := minikubeExec os
    vmDriver := vmDriver
    proxy := proxy
    kubeconfigpath := go "minikube.kubeconfig" }

namespace Minikube

variable {ω : Type}

/-- The method `exec`: call the injected function with the environment of the process
extended by `KUBECONFIG=<kubeconfigpath>`. -/
def exec (os : OS ω) (m : Minikube ω) (args : List GoString) (w : ω) :
    Run ω (GoString × Option GoError) :=
  let kubeconfigEnvVar := go "KUBECONFIG"
  let env := os.Environ w ++ [fmt.Sprintf (go "%v=%v") [kubeconfigEnvVar, m.kubeconfigpath]]
  let r := m.minikubeExec env args w
  { world := r.2, trace := [.minikubeExec env args r.1.1 r.1.2], result := r.1 }

/-- First part of `Create` (up to the first call of `exec`): the construction of the
argument list.  The result is the list, or a panic when `Hostname` is called on the
nil `proxyUrl`; the events are the `glog.Error` calls made on the way. -/
def Create.args (m : Minikube ω) : List Event × Outcome (List GoString) :=
  let args := [go "start", go "--bootstrapper=kubeadm"]
  let args :=
    if m.vmDriver ≠ [] then args ++ [fmt.Sprintf (go "--vm-driver=%v") [m.vmDriver]] else args
  if m.proxy ≠ [] then
    let parsed := url.Parse m.proxy
    let proxyUrl := parsed.1
    let err := parsed.2
    let log :=
      if proxyUrl = none then
        [Event.glogError (go "could not parse proxy. did you forget \"http://\"?")]
      else []
    -- `err = fmt.Errorf(...)` assigns the variable `err` of this block, which is not
    -- used afterwards
    let _err := match err with
      | some err => some (GoError.errorfErr (go "error parsing proxy \x27%v %v\x27: %v")
          [m.proxy, strings.Join args (go " ")] err)
      | none => none
    let args := args ++ [go "--docker-env"]
    let args := args ++ [fmt.Sprintf (go "http_proxy=%s") [m.proxy]]
    let args := args ++ [go "--docker-env"]
    let args := args ++ [fmt.Sprintf (go "https_proxy=%s")
      [strings.Replace m.proxy (go "http://") (go "https://") 1]]
    let args := args ++ [go "--docker-env"]
    match proxyUrl with
    | none => (log, .panicked)
    | some proxyUrl =>
      (log, .returned (args ++ [fmt.Sprintf (go "no_proxy=%s,192.168.0.0/16") [proxyUrl.Hostname]]))
  else
    ([], .returned args)

/-- The method `Create`. -/
def Create (os : OS ω) (m : Minikube ω) (w : ω) : Run ω (Outcome (Option GoError)) :=
  match Create.args m with
  | (log, .panicked) => { world := w, trace := log, result := .panicked }
  | (log, .returned args) =>
    let r1 := m.exec os args w
    match r1.result.2 with
    | some err => { world := r1.world, trace := log ++ r1.trace, result := .returned (some err) }
    | none =>
      let args := [go "update-context"]
      let r2 := m.exec os args r1.world
      { world := r2.world, trace := log ++ r1.trace ++ r2.trace, result := .returned r2.result.2 }

/-- The method `Delete`. -/
def Delete (os : OS ω) (m : Minikube ω) (w : ω) : Run ω (Option GoError) :=
  let r := m.exec os [go "delete"] w
  let err := r.result.2
  let rm := os.Remove m.kubeconfigpath r.world
  { world := rm.2, trace := r.trace ++ [.Remove m.kubeconfigpath rm.1], result := err }

/-- The method `GetKubeconfig`. -/
def GetKubeconfig (os : OS ω) (m : Minikube ω) (w : ω) : Run ω (GoString × Option GoError) :=
  let r := os.ReadFile m.kubeconfigpath w
  let b := r.1.1
  let trace := [Event.ReadFile m.kubeconfigpath b r.1.2]
  match r.1.2 with
  | some err => { world := r.2, trace := trace, result := ([], some err) }
  | none => { world := r.2, trace := trace, result := (b, none) }

end Minikube

/-! ## Notions used to state the properties -/

/-- Split an environment entry `key=value` at its first `=`; `none` when the entry
has no `=`. -/
def envEntry (kv : GoString) : Option (GoString × GoString) :=
  match strings.IndexByte kv (byte '=') with
  | none => none
  | some i => some (kv.take i, kv.drop (i + 1))

/-- The effective value of the variable `key` in an environment list under
last-assignment-wins lookup: the value of the last entry for `key`, `none` when
there is no entry for it. -/
def effectiveEnv (env : List GoString) (key : GoString) : Option GoString :=
  env.foldl
    (fun cur kv =>
      match envEntry kv with
      | some (k, v) => if k = key then some v else cur
      | none => cur)
    none

/-- The calls of the injected execution function made in a run, in order. -/
def execCalls (t : List Event) : List Event := t.filter Event.isExec

/-- A proxy string "has no URL scheme" when it has no `://` in it. -/
def noScheme (p : GoString) : Prop := strings.Contains p (go "://") = false

instance (p : GoString) : Decidable (noScheme p) := by
  unfold noScheme
  infer_instance

/-- The environment `exec` builds in the world state `w`: the environment of the
process followed by the entry `KUBECONFIG=<kubeconfigpath>`. -/
def execEnv {ω : Type} (os : OS ω) (m : Minikube ω) (w : ω) : List GoString :=
  os.Environ w ++ [go "KUBECONFIG=" ++ m.kubeconfigpath]

/-- What the injected function returns when it is called with the arguments `args`
in the world state `w` (the `start` call of `Create`). -/
def startResult {ω : Type} (os : OS ω) (m : Minikube ω) (w : ω) (args : List GoString) :
    (GoString × Option GoError) × ω :=
  m.minikubeExec (execEnv os m w) args w

/-- What the injected function returns for the `update-context` call made in the world
state left by the `start` call. -/
def updateResult {ω : Type} (os : OS ω) (m : Minikube ω) (w : ω) (args : List GoString) :
    (GoString × Option GoError) × ω :=
  m.minikubeExec (execEnv os m (startResult os m w args).2) [go "update-context"]
    (startResult os m w args).2

/-- The argument list of the `start` call before the proxy flags. -/
def baseArgs (d : GoString) : List GoString :=
  [go "start", go "--bootstrapper=kubeadm"] ++ (if d ≠ [] then [go "--vm-driver=" ++ d] else [])

/-- The three `--docker-env` flags for the proxy string `p`, the https variant `p2` and
the host name `h`. -/
def proxyFlags (p p2 h : GoString) : List GoString :=
  [go "--docker-env", go "http_proxy=" ++ p,
   go "--docker-env", go "https_proxy=" ++ p2,
   go "--docker-env", go "no_proxy=" ++ h ++ go ",192.168.0.0/16"]

/-- The string `q` is `p` with the first occurrence of `old` replaced by `new`: either
`p` splits as `a ++ old ++ rest` with no occurrence of `old` starting before the end of
`a`, and `q = a ++ new ++ rest`; or `old` does not occur in `p`, and `q = p`. -/
def firstReplaced (p old new q : GoString) : Prop :=
  (∃ a rest, p = a ++ old ++ rest ∧
      (∀ a2 rest2, p = a2 ++ old ++ rest2 → a.length ≤ a2.length) ∧ q = a ++ new ++ rest) ∨
    ((¬ ∃ a rest, p = a ++ old ++ rest) ∧ q = p)

/-! ## Sample inputs -/

/-- A sample world: the state is a counter of the executions so far; the process
environment already defines `KUBECONFIG` twice; removing a file fails. -/
def sampleOS : OS Nat where
  Environ := fun _ => [go "KUBECONFIG=/old", go "HOME=/root", go "KUBECONFIG=/older"]
  Remove := fun _ w => (some (.other 1 (go "permission denied")), w)
  ReadFile := fun name w =>
    if name = go "minikube.kubeconfig" then ((go "apiVersion: v1", none), w)
    else (([], some (.other 2 (go "no such file or directory"))), w)
  CombinedOutput := fun _ _ _ w => ((go "ok", none), w + 1)

/-- An execution function that always succeeds. -/
def execOk : List GoString → List GoString → Nat → (GoString × Option GoError) × Nat :=
  fun _ _ w => ((go "done", none), w + 1)

/-- An execution function that always fails. -/
def execFail : List GoString → List GoString → Nat → (GoString × Option GoError) × Nat :=
  fun _ _ w => ((go "", some (.other 3 (go "exit status 1"))), w + 1)

/-- An execution function whose first call succeeds and whose later calls fail. -/
def execOnce : List GoString → List GoString → Nat → (GoString × Option GoError) × Nat :=
  fun _ _ w => if w = 0 then ((go "done", none), w + 1)
    else ((go "", some (.other 3 (go "exit status 1"))), w + 1)

/-- A sample adapter: driver `virtualbox`, proxy `http://example.com:8080`. -/
def sampleMinikube : Minikube Nat :=
  ⟨go "minikube.kubeconfig", go "virtualbox", go "http://example.com:8080", execOk⟩

/-- The URL `http://example.com:8080`, parsed. -/
def sampleURL : url.URL := { Scheme := go "http", Host := go "example.com:8080" }

/-! ## Lemmas on the library models -/

namespace fmt

theorem Sprintf_verb (d : UInt8) (hd : d = byte 'v' ∨ d = byte 's') (rest x : GoString)
    (a : List GoString) : Sprintf (byte '%' :: d :: rest) (x :: a) = x ++ Sprintf rest a := by
  simp [Sprintf, hd]

theorem Sprintf_cons (c : UInt8) (hc : c ≠ byte '%') (format : GoString) (a : List GoString) :
    Sprintf (c :: format) a = c :: Sprintf format a := by
  cases format with
  | nil => simp [Sprintf]
  | cons d rest => simp [Sprintf, hc]

theorem Sprintf_literal (pre : GoString) (h : byte '%' ∉ pre) (format : GoString)
    (a : List GoString) : Sprintf (pre ++ format) a = pre ++ Sprintf format a := by
  induction pre with
  | nil => rfl
  | cons c pre ih =>
    have hc : c ≠ byte '%' := fun e => h (by simp [e])
    have hpre : byte '%' ∉ pre := fun e => h (List.mem_cons_of_mem _ e)
    rw [List.cons_append, Sprintf_cons c hc, ih hpre, List.cons_append]

theorem Sprintf_plain (pre : GoString) (h : byte '%' ∉ pre) (a : List GoString) :
    Sprintf pre a = pre := by
  have := Sprintf_literal pre h [] a
  simpa [Sprintf] using this

theorem Sprintf_vmDriver (d : GoString) :
    Sprintf (go "--vm-driver=%v") [d] = go "--vm-driver=" ++ d := by
  rw [show go "--vm-driver=%v" = go "--vm-driver=" ++ (byte '%' :: byte 'v' :: []) from by decide,
    Sprintf_literal _ (by decide), Sprintf_verb _ (by decide)]
  simp [Sprintf]

theorem Sprintf_http_proxy (p : GoString) :
    Sprintf (go "http_proxy=%s") [p] = go "http_proxy=" ++ p := by
  rw [show go "http_proxy=%s" = go "http_proxy=" ++ (byte '%' :: byte 's' :: []) from by decide,
    Sprintf_literal _ (by decide), Sprintf_verb _ (by decide)]
  simp [Sprintf]

theorem Sprintf_https_proxy (p : GoString) :
    Sprintf (go "https_proxy=%s") [p] = go "https_proxy=" ++ p := by
  rw [show go "https_proxy=%s" = go "https_proxy=" ++ (byte '%' :: byte 's' :: []) from by decide,
    Sprintf_literal _ (by decide), Sprintf_verb _ (by decide)]
  simp [Sprintf]

theorem Sprintf_no_proxy (h : GoString) :
    Sprintf (go "no_proxy=%s,192.168.0.0/16") [h] = go "no_proxy=" ++ h ++ go ",192.168.0.0/16" := by
  rw [show go "no_proxy=%s,192.168.0.0/16"
      = go "no_proxy=" ++ (byte '%' :: byte 's' :: go ",192.168.0.0/16") from by decide,
    Sprintf_literal _ (by decide), Sprintf_verb _ (by decide), Sprintf_plain _ (by decide)]
  simp

theorem Sprintf_kubeconfig (k : GoString) :
    Sprintf (go "%v=%v") [go "KUBECONFIG", k] = go "KUBECONFIG=" ++ k := by
  rw [show go "%v=%v" = byte '%' :: byte 'v' :: (go "=" ++ (byte '%' :: byte 'v' :: [])) from by decide,
    Sprintf_verb _ (by decide), Sprintf_literal _ (by decide), Sprintf_verb _ (by decide),
    show go "KUBECONFIG=" = go "KUBECONFIG" ++ go "=" from by decide]
  simp [Sprintf]

end fmt

namespace strings

theorem Index_of_prefix (old rest : GoString) : Index (old ++ rest) old = some 0 := by
  cases old with
  | nil => cases rest <;> simp [Index]
  | cons c t =>
    have h : (c :: t).isPrefixOf (c :: (t ++ rest)) = true := by
      rw [List.isPrefixOf_iff_prefix]
      exact List.prefix_append (c :: t) rest
    rw [List.cons_append]
    unfold Index
    rw [if_pos h]

theorem Replace_first_of_prefix (old new rest : GoString) (hne : old ≠ new) (hold : old ≠ []) :
    Replace (old ++ rest) old new 1 = new ++ rest := by
  simp [Replace, Replace.loop, hne, hold, Index_of_prefix]

theorem Index_isSome_iff (s sep : GoString) : (Index s sep).isSome ↔ sep <:+: s := by
  induction s with
  | nil =>
    unfold Index
    by_cases h : sep = [] <;> simp [h]
  | cons c t ih =>
    unfold Index
    rw [List.infix_cons_iff, ← ih, ← List.isPrefixOf_iff_prefix]
    by_cases h : sep.isPrefixOf (c :: t) = true <;> simp [h]

theorem Replace_of_not_Contains (s old new : GoString) (n : Int) (h : Contains s old = false) :
    Replace s old new n = s := by
  have hi : Index s old = none := by
    unfold Contains at h
    cases hx : Index s old with
    | none => rfl
    | some i => rw [hx] at h; simp at h
  unfold Replace
  split
  · rfl
  · cases hn : (if n < 0 then s.length else n.toNat) with
    | zero => rfl
    | succ k => simp [Replace.loop, hi]

theorem IndexByte_append_cons (k v : GoString) (c : UInt8) (h : c ∉ k) :
    IndexByte (k ++ c :: v) c = some k.length := by
  induction k with
  | nil => simp [IndexByte]
  | cons b k ih =>
    have hb : b ≠ c := fun e => h (by simp [e])
    have hk : c ∉ k := fun e => h (List.mem_cons_of_mem _ e)
    simp [IndexByte, hb, ih hk]

theorem Index_eq_none_iff (s sep : GoString) :
    Index s sep = none ↔ ¬ ∃ a rest, s = a ++ sep ++ rest := by
  have h := Index_isSome_iff s sep
  constructor
  · rintro hn ⟨a, rest, hs⟩
    have : (Index s sep).isSome := h.2 ⟨a, rest, hs.symm⟩
    rw [hn] at this
    cases this
  · intro hno
    cases hx : Index s sep with
    | none => rfl
    | some i =>
      obtain ⟨a, rest, hs⟩ := h.1 (by rw [hx]; rfl)
      exact absurd ⟨a, rest, hs.symm⟩ hno

/-- What `Index s old = some i` means: `s` splits at `i` around an instance of `old`,
and no instance of `old` starts earlier. -/
theorem Index_some_spec (old : GoString) :
    ∀ (s : GoString) (i : Nat), Index s old = some i →
      ∃ a rest, s = a ++ old ++ rest ∧ a.length = i ∧
        ∀ a2 rest2, s = a2 ++ old ++ rest2 → a.length ≤ a2.length := by
  intro s
  induction s with
  | nil =>
    intro i h
    unfold Index at h
    by_cases ho : old = []
    · rw [if_pos ho] at h
      cases h
      exact ⟨[], [], by simp [ho], rfl, fun _ _ _ => Nat.zero_le _⟩
    · rw [if_neg ho] at h
      cases h
  | cons c t ih =>
    intro i h
    unfold Index at h
    by_cases hp : old.isPrefixOf (c :: t) = true
    · rw [if_pos hp] at h
      cases h
      obtain ⟨rest, hrest⟩ := List.isPrefixOf_iff_prefix.1 hp
      exact ⟨[], rest, by simp [hrest], rfl, fun _ _ _ => Nat.zero_le _⟩
    · rw [if_neg hp] at h
      cases hj : Index t old with
      | none =>
        rw [hj] at h
        cases h
      | some j =>
        rw [hj] at h
        cases h
        obtain ⟨a, rest, hs, hlen, hmin⟩ := ih j hj
        refine ⟨c :: a, rest, by simp [hs], by simp [hlen], ?_⟩
        intro a2 rest2 h2
        cases a2 with
        | nil =>
          exfalso
          apply hp
          rw [List.isPrefixOf_iff_prefix]
          exact ⟨rest2, by simpa using h2.symm⟩
        | cons c2 a3 =>
          simp only [List.cons_append, List.cons.injEq] at h2
          have := hmin a3 rest2 (by simpa using h2.2)
          simpa using this

theorem Replace_first_spec (s old new : GoString) (a rest : GoString) (hne : old ≠ new)
    (hold : old ≠ []) (hs : s = a ++ old ++ rest) (hi : Index s old = some a.length) :
    Replace s old new 1 = a ++ new ++ rest := by
  have ht : s.take a.length = a := by
    rw [hs]
    simp
  have hd : s.drop (a.length + old.length) = rest := by
    rw [hs, List.append_assoc, ← List.drop_drop]
    simp
  simp [Replace, Replace.loop, hne, hold, hi, ht, hd]

theorem Replace_http (rest : GoString) :
    Replace (go "http://" ++ rest) (go "http://") (go "https://") 1 = go "https://" ++ rest :=
  Replace_first_of_prefix _ _ _ (by decide) (by decide)

end strings

/-! ## Lemmas on `Create` -/

namespace Minikube

variable {ω : Type}

theorem exec_eq (os : OS ω) (m : Minikube ω) (args : List GoString) (w : ω) :
    m.exec os args w =
      { world := (m.minikubeExec (execEnv os m w) args w).2
        trace := [.minikubeExec (execEnv os m w) args
          (m.minikubeExec (execEnv os m w) args w).1.1
          (m.minikubeExec (execEnv os m w) args w).1.2]
        result := (m.minikubeExec (execEnv os m w) args w).1 } := by
  simp only [exec, execEnv, fmt.Sprintf_kubeconfig]

theorem Create.args_of_no_proxy (m : Minikube ω) (hp : m.proxy = []) :
    Create.args m = ([], .returned (baseArgs m.vmDriver)) := by
  unfold Create.args baseArgs
  by_cases hd : m.vmDriver = [] <;> simp [hp, hd, fmt.Sprintf_vmDriver]

theorem Create.args_of_parsed (m : Minikube ω) (u : url.URL) (hp : m.proxy ≠ [])
    (hu : (url.Parse m.proxy).1 = some u) :
    Create.args m = ([], .returned (baseArgs m.vmDriver ++
      proxyFlags m.proxy (strings.Replace m.proxy (go "http://") (go "https://") 1) u.Hostname)) := by
  unfold Create.args baseArgs proxyFlags
  by_cases hd : m.vmDriver = [] <;>
    simp [hp, hd, hu, fmt.Sprintf_vmDriver, fmt.Sprintf_http_proxy, fmt.Sprintf_https_proxy,
      fmt.Sprintf_no_proxy]

theorem Create.args_of_failed (m : Minikube ω) (hp : m.proxy ≠ [])
    (hu : (url.Parse m.proxy).1 = none) :
    Create.args m =
      ([.glogError (go "could not parse proxy. did you forget \"http://\"?")], .panicked) := by
  unfold Create.args
  simp [hp, hu]

theorem Create_of_start_failed (os : OS ω) (m : Minikube ω) (w : ω) (args : List GoString)
    (e : GoError) (h : Create.args m = ([], .returned args))
    (he : (startResult os m w args).1.2 = some e) :
    Create os m w =
      { world := (startResult os m w args).2
        trace := [.minikubeExec (execEnv os m w) args (startResult os m w args).1.1 (some e)]
        result := .returned (some e) } := by
  unfold startResult at he
  unfold Create startResult
  rw [h]
  simp only [exec_eq, he, List.nil_append]

theorem Create_of_start_ok (os : OS ω) (m : Minikube ω) (w : ω) (args : List GoString)
    (h : Create.args m = ([], .returned args))
    (he : (startResult os m w args).1.2 = none) :
    Create os m w =
      { world := (updateResult os m w args).2
        trace :=
          [.minikubeExec (execEnv os m w) args (startResult os m w args).1.1 none,
           .minikubeExec (execEnv os m (startResult os m w args).2) [go "update-context"]
             (updateResult os m w args).1.1 (updateResult os m w args).1.2]
        result := .returned (updateResult os m w args).1.2 } := by
  unfold startResult at he
  unfold Create updateResult startResult
  rw [h]
  simp only [exec_eq, he, List.nil_append, List.singleton_append]

theorem Create_of_args_panicked (os : OS ω) (m : Minikube ω) (w : ω) (log : List Event)
    (h : Create.args m = (log, .panicked)) :
    Create os m w = { world := w, trace := log, result := .panicked } := by
  unfold Create
  rw [h]

/-- The ways the argument construction of `Create` can end: with an argument list and
no logging, or with a panic after one `glog.Error`. -/
theorem Create.args_cases (m : Minikube ω) :
    (∃ args, Create.args m = ([], .returned args)) ∨
      (m.proxy ≠ [] ∧ (url.Parse m.proxy).1 = none ∧ Create.args m =
        ([.glogError (go "could not parse proxy. did you forget \"http://\"?")], .panicked)) := by
  by_cases hp : m.proxy = []
  · exact Or.inl ⟨_, Create.args_of_no_proxy m hp⟩
  · rcases Option.eq_none_or_eq_some (url.Parse m.proxy).1 with hu | ⟨u, hu⟩
    · exact Or.inr ⟨hp, hu, Create.args_of_failed m hp hu⟩
    · exact Or.inl ⟨_, Create.args_of_parsed m u hp hu⟩

/-- The first execution call of `Create` after a completed argument construction is
made with the constructed list. -/
theorem Create_first_call (os : OS ω) (m : Minikube ω) (w : ω) (args : List GoString)
    (h : Create.args m = ([], .returned args)) :
    ∃ out err, (execCalls (Create os m w).trace).head?
      = some (.minikubeExec (execEnv os m w) args out err) := by
  rcases Option.eq_none_or_eq_some (startResult os m w args).1.2 with he | ⟨e, he⟩
  · rw [Create_of_start_ok os m w args h he]
    exact ⟨_, _, rfl⟩
  · rw [Create_of_start_failed os m w args e h he]
    exact ⟨_, _, rfl⟩

/-- C1: for an adapter whose proxy is `http://example.com:8080`, whatever the VM
driver, the credentials path, the execution function and the world, the argument list
of the first execution call of `Create` contains `https_proxy=https://example.com:8080`
and `no_proxy=example.com,192.168.0.0/16`, each immediately preceded by
`--docker-env`. -/
theorem create_example_proxy_flags (os : OS ω) (k d : GoString)
    (f : List GoString → List GoString → ω → (GoString × Option GoError) × ω) (w : ω) :
    ∃ env args out err,
      (execCalls (Create os ⟨k, d, go "http://example.com:8080", f⟩ w).trace).head?
        = some (.minikubeExec env args out err) ∧
      (∃ pre post,
        args = pre ++ [go "--docker-env", go "https_proxy=https://example.com:8080"] ++ post) ∧
      (∃ pre post,
        args = pre ++ [go "--docker-env", go "no_proxy=example.com,192.168.0.0/16"] ++ post) := by
  have hparse : (url.Parse (go "http://example.com:8080")).1
      = some { Scheme := go "http", Host := go "example.com:8080" } := by decide
  have hargs := Create.args_of_parsed (⟨k, d, go "http://example.com:8080", f⟩ : Minikube ω) _
    (by show go "http://example.com:8080" ≠ []; decide) hparse
  obtain ⟨out, err, hcall⟩ := Create_first_call os _ w _ hargs
  refine ⟨_, _, out, err, hcall, ?_, ?_⟩
  · refine ⟨baseArgs d ++ [go "--docker-env", go "http_proxy=" ++ go "http://example.com:8080"],
      [go "--docker-env", go "no_proxy=example.com,192.168.0.0/16"], ?_⟩
    have h1 : go "https_proxy=" ++ strings.Replace (go "http://example.com:8080") (go "http://")
        (go "https://") 1 = go "https_proxy=https://example.com:8080" := by decide
    have h2 : go "no_proxy=" ++ url.URL.Hostname { Scheme := go "http", Host := go "example.com:8080" }
        ++ go ",192.168.0.0/16" = go "no_proxy=example.com,192.168.0.0/16" := by decide
    simp only [proxyFlags, h1, h2, List.append_assoc, List.cons_append, List.nil_append]
  · refine ⟨baseArgs d ++ [go "--docker-env", go "http_proxy=" ++ go "http://example.com:8080",
      go "--docker-env", go "https_proxy=" ++ strings.Replace (go "http://example.com:8080")
        (go "http://") (go "https://") 1], [], ?_⟩
    have h2 : go "no_proxy=" ++ url.URL.Hostname { Scheme := go "http", Host := go "example.com:8080" }
        ++ go ",192.168.0.0/16" = go "no_proxy=example.com,192.168.0.0/16" := by decide
    simp only [proxyFlags, h2, List.append_assoc, List.cons_append, List.nil_append,
      List.append_nil]

/-- C2: for every VM driver `d` and every proxy `p` that is empty or parses as a URL
with host name `h`, the argument list of the first execution call of `Create` is
exactly `start`, `--bootstrapper=kubeadm`, then `--vm-driver=d` iff `d` is non-empty,
then the three `--docker-env` flags `http_proxy=p`, `https_proxy=p2`,
`no_proxy=h,192.168.0.0/16` iff `p` is non-empty, where `p2` is `p` with its first
`http://` replaced by `https://`; with empty driver and empty proxy it is exactly
`start`, `--bootstrapper=kubeadm`. -/
theorem create_start_args (os : OS ω) (m : Minikube ω) (w : ω) (u : url.URL) (h : GoString)
    (hp : m.proxy = [] ∨ (url.Parse m.proxy = (some u, none) ∧ u.Hostname = h)) :
    (∃ out err, (execCalls (Create os m w).trace).head? = some (.minikubeExec (execEnv os m w)
      ([go "start", go "--bootstrapper=kubeadm"]
        ++ (if m.vmDriver ≠ [] then [go "--vm-driver=" ++ m.vmDriver] else [])
        ++ (if m.proxy ≠ [] then
              [go "--docker-env", go "http_proxy=" ++ m.proxy,
               go "--docker-env",
               go "https_proxy=" ++ strings.Replace m.proxy (go "http://") (go "https://") 1,
               go "--docker-env", go "no_proxy=" ++ h ++ go ",192.168.0.0/16"]
            else []))
      out err)) ∧
    (m.vmDriver = [] ∧ m.proxy = [] → ∃ out err, (execCalls (Create os m w).trace).head?
      = some (.minikubeExec (execEnv os m w) [go "start", go "--bootstrapper=kubeadm"] out err)) := by
  have key : ∃ out err, (execCalls (Create os m w).trace).head? = some (.minikubeExec (execEnv os m w)
      ([go "start", go "--bootstrapper=kubeadm"]
        ++ (if m.vmDriver ≠ [] then [go "--vm-driver=" ++ m.vmDriver] else [])
        ++ (if m.proxy ≠ [] then
              [go "--docker-env", go "http_proxy=" ++ m.proxy,
               go "--docker-env",
               go "https_proxy=" ++ strings.Replace m.proxy (go "http://") (go "https://") 1,
               go "--docker-env", go "no_proxy=" ++ h ++ go ",192.168.0.0/16"]
            else []))
      out err) := by
    by_cases hne : m.proxy = []
    · have hargs := Create.args_of_no_proxy m hne
      obtain ⟨out, err, hcall⟩ := Create_first_call os m w _ hargs
      refine ⟨out, err, ?_⟩
      rw [hcall]
      simp [baseArgs, hne]
    · rcases hp with hp | ⟨hparse, hh⟩
      · exact absurd hp hne
      · have hargs := Create.args_of_parsed m u hne (by rw [hparse])
        obtain ⟨out, err, hcall⟩ := Create_first_call os m w _ hargs
        refine ⟨out, err, ?_⟩
        rw [hcall]
        simp [baseArgs, proxyFlags, hne, hh]
  refine ⟨key, ?_⟩
  rintro ⟨hd, hpe⟩
  obtain ⟨out, err, hcall⟩ := key
  refine ⟨out, err, ?_⟩
  rw [hcall]
  simp [hd, hpe]

/-- Witness of C2: the driver `virtualbox` with the proxy `http://example.com:8080`,
whose host name is `example.com`. -/
theorem create_start_args_witness :
    (url.Parse sampleMinikube.proxy = (some sampleURL, none)
      ∧ sampleURL.Hostname = go "example.com") ∧
    ∃ out err, (execCalls (Create sampleOS sampleMinikube 0).trace).head?
      = some (.minikubeExec
          [go "KUBECONFIG=/old", go "HOME=/root", go "KUBECONFIG=/older",
           go "KUBECONFIG=minikube.kubeconfig"]
          [go "start", go "--bootstrapper=kubeadm", go "--vm-driver=virtualbox",
           go "--docker-env", go "http_proxy=http://example.com:8080",
           go "--docker-env", go "https_proxy=https://example.com:8080",
           go "--docker-env", go "no_proxy=example.com,192.168.0.0/16"]
          out err) :=
  ⟨by decide, (create_start_args sampleOS sampleMinikube 0 sampleURL (go "example.com")
    (Or.inr (by decide))).1⟩

/-- C3: if the first execution call made by `Create` returns no error, `Create` makes
exactly two execution calls, the second with the argument list `update-context`; if
the first call returns an error, `Create` makes exactly one execution call. -/
theorem create_execution_calls (os : OS ω) (m : Minikube ω) (w : ω) (env args : List GoString)
    (out : GoString) (err : Option GoError)
    (h : (execCalls (Create os m w).trace).head? = some (.minikubeExec env args out err)) :
    (err = none → ∃ env2 out2 err2, execCalls (Create os m w).trace =
      [.minikubeExec env args out none, .minikubeExec env2 [go "update-context"] out2 err2]) ∧
    (∀ e, err = some e → execCalls (Create os m w).trace = [.minikubeExec env args out (some e)]) := by
  rcases Create.args_cases m with ⟨a, ha⟩ | ⟨_, _, hpan⟩
  · rcases Option.eq_none_or_eq_some (startResult os m w a).1.2 with he | ⟨e, he⟩
    · rw [Create_of_start_ok os m w a ha he] at h ⊢
      simp only [execCalls, List.filter, Event.isExec, List.head?_cons, Option.some.injEq,
        Event.minikubeExec.injEq] at h ⊢
      obtain ⟨h1, h2, h3, h4⟩ := h
      subst h1 h2 h3 h4
      exact ⟨fun _ => ⟨_, _, _, rfl⟩, fun e he => (by cases he)⟩
    · rw [Create_of_start_failed os m w a e ha he] at h ⊢
      simp only [execCalls, List.filter, Event.isExec, List.head?_cons, Option.some.injEq,
        Event.minikubeExec.injEq] at h ⊢
      obtain ⟨h1, h2, h3, h4⟩ := h
      subst h1 h2 h3 h4
      refine ⟨fun he => (by cases he), fun e2 he2 => ?_⟩
      cases he2
      rfl
  · rw [Create_of_args_panicked os m w _ hpan] at h
    simp [execCalls, Event.isExec] at h

/-- Witness of C3: with an execution function that succeeds `Create` makes the two
calls `start ...` and `update-context`; with one that fails it makes one call. -/
theorem create_execution_calls_witness :
    (∃ env2 out2 err2, execCalls (Create sampleOS sampleMinikube 0).trace =
      [.minikubeExec (execEnv sampleOS sampleMinikube 0)
          (baseArgs (go "virtualbox") ++ proxyFlags (go "http://example.com:8080")
            (go "https://example.com:8080") (go "example.com")) (go "done") none,
       .minikubeExec env2 [go "update-context"] out2 err2]) ∧
    execCalls (Create sampleOS { sampleMinikube with minikubeExec := execFail } 0).trace =
      [.minikubeExec (execEnv sampleOS sampleMinikube 0)
          (baseArgs (go "virtualbox") ++ proxyFlags (go "http://example.com:8080")
            (go "https://example.com:8080") (go "example.com")) (go "")
          (some (.other 3 (go "exit status 1")))] :=
  ⟨(create_execution_calls sampleOS sampleMinikube 0 _ _ _ none (by decide)).1 rfl,
   (create_execution_calls sampleOS { sampleMinikube with minikubeExec := execFail } 0 _ _ _
     (some (.other 3 (go "exit status 1"))) (by decide)).2 _ rfl⟩

/-- C4 (the code at a proxy string that does not parse): for the proxy `1.2.3.4:8080`
`url.Parse` returns the nil URL and an error; `Create` logs, makes no execution call,
and then does not return an error: it panics on the nil URL. -/
theorem create_unparsable_proxy_panics (os : OS ω) (k d : GoString)
    (f : List GoString → List GoString → ω → (GoString × Option GoError) × ω) (w : ω) :
    url.Parse (go "1.2.3.4:8080") = (none, some (.urlError (go "parse") (go "1.2.3.4:8080")
      (.errorsNew (go "first path segment in URL cannot contain colon")))) ∧
    Create os ⟨k, d, go "1.2.3.4:8080", f⟩ w =
      { world := w
        trace := [.glogError (go "could not parse proxy. did you forget \"http://\"?")]
        result := .panicked } := by
  refine ⟨by decide, ?_⟩
  exact Create_of_args_panicked os _ w _
    (Create.args_of_failed _ (by show go "1.2.3.4:8080" ≠ []; decide)
      (by show (url.Parse (go "1.2.3.4:8080")).1 = none; decide))

/-- C9: when the argument construction of `Create` completes, `Create` returns the
error of the `start` call if that call fails, and otherwise what the `update-context`
call returns; so it returns nil iff both calls return no error. -/
theorem create_result (os : OS ω) (m : Minikube ω) (w : ω) (log : List Event)
    (args : List GoString) (h : Create.args m = (log, .returned args)) :
    (Create os m w).result = .returned
      (match (startResult os m w args).1.2 with
        | some e => some e
        | none => (updateResult os m w args).1.2) ∧
    ((Create os m w).result = .returned none ↔
      (startResult os m w args).1.2 = none ∧ (updateResult os m w args).1.2 = none) := by
  have hlog : log = [] := by
    rcases Create.args_cases m with ⟨a, ha⟩ | ⟨_, _, hpan⟩
    · rw [ha] at h
      exact (Prod.mk.inj h).1.symm
    · rw [hpan] at h
      exact absurd (Prod.mk.inj h).2 (by simp)
  subst hlog
  rcases Option.eq_none_or_eq_some (startResult os m w args).1.2 with he | ⟨e, he⟩
  · rw [Create_of_start_ok os m w args h he, he]
    simp
  · rw [Create_of_start_failed os m w args e h he, he]
    simp

/-- Witness of C9: the first call succeeds and the second fails; `Create` returns the
error of the second call. -/
theorem create_result_witness :
    (Create sampleOS { sampleMinikube with minikubeExec := execOnce } 0).result
      = .returned (some (.other 3 (go "exit status 1"))) :=
  (create_result sampleOS { sampleMinikube with minikubeExec := execOnce } 0 []
    (baseArgs (go "virtualbox") ++ proxyFlags (go "http://example.com:8080")
      (go "https://example.com:8080") (go "example.com")) (by decide)).1

/-! ## The environment of execution calls -/

theorem envEntry_kubeconfig (path : GoString) :
    envEntry (go "KUBECONFIG=" ++ path) = some (go "KUBECONFIG", path) := by
  have hlit : go "KUBECONFIG=" ++ path = go "KUBECONFIG" ++ byte '=' :: path := by
    rw [show go "KUBECONFIG=" = go "KUBECONFIG" ++ [byte '='] from by decide]
    simp
  have hidx := strings.IndexByte_append_cons (go "KUBECONFIG") path (byte '=') (by decide)
  unfold envEntry
  rw [hlit, hidx]
  simp

theorem effectiveEnv_append (E : List GoString) (kv key : GoString) :
    effectiveEnv (E ++ [kv]) key =
      match envEntry kv with
      | some (k, v) => if k = key then some v else effectiveEnv E key
      | none => effectiveEnv E key := by
  simp [effectiveEnv, List.foldl_append]

/-- C5: for every adapter, every inherited process environment `E` and every argument
list, `exec` makes one call of the injected function, with the given arguments and with
the environment `E` followed by the single entry `KUBECONFIG=<kubeconfigpath>`, and
returns what that call returns; under last-assignment-wins lookup the value of
`KUBECONFIG` in that environment is the configured path, and every other variable has
the value it has in `E`. -/
theorem exec_environment (os : OS ω) (m : Minikube ω) (args : List GoString) (w : ω)
    (E : List GoString) (hE : os.Environ w = E) (key : GoString) (hkey : key ≠ go "KUBECONFIG") :
    (m.exec os args w).trace =
      [.minikubeExec (E ++ [go "KUBECONFIG=" ++ m.kubeconfigpath]) args
        (m.minikubeExec (E ++ [go "KUBECONFIG=" ++ m.kubeconfigpath]) args w).1.1
        (m.minikubeExec (E ++ [go "KUBECONFIG=" ++ m.kubeconfigpath]) args w).1.2] ∧
    (m.exec os args w).result = (m.minikubeExec (E ++ [go "KUBECONFIG=" ++ m.kubeconfigpath]) args w).1 ∧
    effectiveEnv (E ++ [go "KUBECONFIG=" ++ m.kubeconfigpath]) (go "KUBECONFIG")
      = some m.kubeconfigpath ∧
    effectiveEnv (E ++ [go "KUBECONFIG=" ++ m.kubeconfigpath]) key = effectiveEnv E key := by
  subst hE
  refine ⟨?_, ?_, ?_, ?_⟩
  · rw [exec_eq]
    rfl
  · rw [exec_eq]
    rfl
  · rw [effectiveEnv_append, envEntry_kubeconfig]
    simp
  · rw [effectiveEnv_append, envEntry_kubeconfig]
    simp [Ne.symm hkey]

/-- Witness of C5: the inherited environment defines `KUBECONFIG` twice and `HOME`
once; the environment handed over gives `KUBECONFIG` the configured path and `HOME`
its inherited value. -/
theorem exec_environment_witness :
    effectiveEnv ([go "KUBECONFIG=/old", go "HOME=/root", go "KUBECONFIG=/older"]
        ++ [go "KUBECONFIG=" ++ sampleMinikube.kubeconfigpath]) (go "KUBECONFIG")
      = some (go "minikube.kubeconfig") ∧
    effectiveEnv ([go "KUBECONFIG=/old", go "HOME=/root", go "KUBECONFIG=/older"]
        ++ [go "KUBECONFIG=" ++ sampleMinikube.kubeconfigpath]) (go "HOME")
      = some (go "/root") :=
  have h := exec_environment sampleOS sampleMinikube [go "delete"] 0
    [go "KUBECONFIG=/old", go "HOME=/root", go "KUBECONFIG=/older"] rfl (go "HOME") (by decide)
  ⟨h.2.2.1, h.2.2.2.trans (by decide)⟩

/-! ## `Delete` and `GetKubeconfig` -/

/-- C6: `Delete` makes exactly one execution call, with the argument list `delete`,
then calls `os.Remove` on the configured credentials path, whatever the execution call
returned, and returns exactly the error of the execution call, whatever `os.Remove`
returned. -/
theorem delete_calls_and_result (os : OS ω) (m : Minikube ω) (w : ω) :
    (Delete os m w).trace =
      [.minikubeExec (execEnv os m w) [go "delete"]
          (startResult os m w [go "delete"]).1.1 (startResult os m w [go "delete"]).1.2,
       .Remove m.kubeconfigpath
          (os.Remove m.kubeconfigpath (startResult os m w [go "delete"]).2).1] ∧
    (Delete os m w).result = (startResult os m w [go "delete"]).1.2 := by
  constructor <;> simp [Delete, startResult, exec_eq]

/-- C7: `GetKubeconfig` reads the file at the configured credentials path and makes no
other call; if the read returns an error it returns the empty string and that error,
unchanged; otherwise it returns exactly the contents read and the nil error. -/
theorem getKubeconfig_result (os : OS ω) (m : Minikube ω) (w : ω) :
    (GetKubeconfig os m w).trace =
      [.ReadFile m.kubeconfigpath (os.ReadFile m.kubeconfigpath w).1.1
        (os.ReadFile m.kubeconfigpath w).1.2] ∧
    execCalls (GetKubeconfig os m w).trace = [] ∧
    (GetKubeconfig os m w).result =
      match (os.ReadFile m.kubeconfigpath w).1.2 with
      | some err => ([], some err)
      | none => ((os.ReadFile m.kubeconfigpath w).1.1, none) := by
  rcases Option.eq_none_or_eq_some (os.ReadFile m.kubeconfigpath w).1.2 with h | ⟨e, h⟩ <;>
    simp [GetKubeconfig, h, execCalls, Event.isExec]

/-! ## Proxy strings without a scheme, and with a scheme other than `http` -/

/-- C8 (as stated, refuted): the proxy string `127.0.0.1:3128` is non-empty and has no
URL scheme (no `://`, and no scheme for `getscheme` either), but it does not parse, and
`Create` makes no execution call at all: it panics. -/
theorem create_schemeless_unparsable_proxy :
    go "127.0.0.1:3128" ≠ [] ∧ noScheme (go "127.0.0.1:3128") ∧
    (url.getscheme (go "127.0.0.1:3128")).toOption = some ([], go "127.0.0.1:3128") ∧
    execCalls (Create sampleOS { sampleMinikube with proxy := go "127.0.0.1:3128" } 0).trace = [] ∧
    (Create sampleOS { sampleMinikube with proxy := go "127.0.0.1:3128" } 0).result = .panicked := by
  decide

/-- C8 (amended): for every non-empty proxy string that has no URL scheme and that
`url.Parse` accepts, `Create` constructs the three `--docker-env` flags and passes them
in the argument list of the `start` execution call; the `https_proxy` flag then carries
the proxy string unchanged. -/
theorem create_schemeless_proxy_flags (os : OS ω) (m : Minikube ω) (w : ω) (u : url.URL)
    (hne : m.proxy ≠ []) (hs : noScheme m.proxy) (hparse : url.Parse m.proxy = (some u, none)) :
    ∃ out err, (Create os m w).trace.head? = some (.minikubeExec (execEnv os m w)
      (baseArgs m.vmDriver ++
        [go "--docker-env", go "http_proxy=" ++ m.proxy,
         go "--docker-env", go "https_proxy=" ++ m.proxy,
         go "--docker-env", go "no_proxy=" ++ u.Hostname ++ go ",192.168.0.0/16"])
      out err) := by
  have hc : strings.Contains m.proxy (go "http://") = false := by
    cases hx : strings.Contains m.proxy (go "http://") with
    | false => rfl
    | true =>
      have h1 : go "http://" <:+: m.proxy := (strings.Index_isSome_iff _ _).1 hx
      have h2 : go "://" <:+: go "http://" := by
        rw [show go "http://" = go "http" ++ go "://" from by decide]
        exact (List.suffix_append _ _).isInfix
      have h3 : (strings.Index m.proxy (go "://")).isSome :=
        (strings.Index_isSome_iff _ _).2 (h2.trans h1)
      have h4 : strings.Contains m.proxy (go "://") = false := hs
      unfold strings.Contains at h4
      rw [h4] at h3
      cases h3
  have hargs := Create.args_of_parsed m u hne (by rw [hparse])
  rw [strings.Replace_of_not_Contains _ _ _ _ hc] at hargs
  rcases Option.eq_none_or_eq_some (startResult os m w _).1.2 with he | ⟨e, he⟩
  · rw [Create_of_start_ok os m w _ hargs he]
    exact ⟨_, _, rfl⟩
  · rw [Create_of_start_failed os m w _ e hargs he]
    exact ⟨_, _, rfl⟩

/-- Witness of C8 (amended): the proxy strings `example.com` and `example.com:8080`. -/
theorem create_schemeless_proxy_flags_witness :
    (∃ out err, (Create sampleOS { sampleMinikube with proxy := go "example.com" } 0).trace.head?
      = some (.minikubeExec (execEnv sampleOS sampleMinikube 0)
          [go "start", go "--bootstrapper=kubeadm", go "--vm-driver=virtualbox",
           go "--docker-env", go "http_proxy=example.com",
           go "--docker-env", go "https_proxy=example.com",
           go "--docker-env", go "no_proxy=,192.168.0.0/16"] out err)) ∧
    (∃ out err, (Create sampleOS { sampleMinikube with proxy := go "example.com:8080" } 0).trace.head?
      = some (.minikubeExec (execEnv sampleOS sampleMinikube 0)
          [go "start", go "--bootstrapper=kubeadm", go "--vm-driver=virtualbox",
           go "--docker-env", go "http_proxy=example.com:8080",
           go "--docker-env", go "https_proxy=example.com:8080",
           go "--docker-env", go "no_proxy=,192.168.0.0/16"] out err)) :=
  ⟨create_schemeless_proxy_flags sampleOS { sampleMinikube with proxy := go "example.com" } 0
      { Path := go "example.com" } (by decide) (by decide) (by decide),
   create_schemeless_proxy_flags sampleOS { sampleMinikube with proxy := go "example.com:8080" } 0
      { Scheme := go "example.com", Opaque := go "8080" } (by decide) (by decide) (by decide)⟩

/-- C10 (as stated, refuted): the proxy string `socks5://example.com:1080` parses as a
URL with the scheme `socks5`, and the `https_proxy` flag `Create` forwards for it is
`https_proxy=socks5://example.com:1080`, not `https_proxy=https://example.com:1080`. -/
theorem create_socks_proxy_https_flag :
    (url.Parse (go "socks5" ++ go "://" ++ go "example.com:1080")).1
      = some { Scheme := go "socks5", Host := go "example.com:1080" } ∧
    (execCalls (Create sampleOS
        { sampleMinikube with proxy := go "socks5" ++ go "://" ++ go "example.com:1080" } 0).trace).head?
      = some (.minikubeExec (execEnv sampleOS sampleMinikube 0)
          [go "start", go "--bootstrapper=kubeadm", go "--vm-driver=virtualbox",
           go "--docker-env", go "http_proxy=socks5://example.com:1080",
           go "--docker-env", go "https_proxy=socks5://example.com:1080",
           go "--docker-env", go "no_proxy=example.com,192.168.0.0/16"] (go "done") none) ∧
    go "https_proxy=socks5://example.com:1080" ≠ go "https_proxy=https://" ++ go "example.com:1080" := by
  decide

/-- C10 (amended): for every non-empty proxy string `p` that parses as a URL, the
argument list of the `start` call contains, in a row, `--docker-env`, `http_proxy=p`,
`--docker-env`, `https_proxy=q`, where `q` is `p` with the first occurrence of the text
`http://` replaced by `https://`, and `p` itself when `http://` does not occur in it.
In particular `q = https:// ++ rest` when `p = http:// ++ rest`, and `q = p` when
`http://` does not occur in `p`. -/
theorem create_https_proxy_flag (os : OS ω) (m : Minikube ω) (w : ω) (u : url.URL)
    (hne : m.proxy ≠ []) (hparse : url.Parse m.proxy = (some u, none)) :
    ∃ out err pre post q,
      (execCalls (Create os m w).trace).head?
        = some (.minikubeExec (execEnv os m w)
            (pre ++ [go "--docker-env", go "http_proxy=" ++ m.proxy,
              go "--docker-env", go "https_proxy=" ++ q] ++ post) out err) ∧
      firstReplaced m.proxy (go "http://") (go "https://") q ∧
      (∀ a rest, m.proxy = a ++ go "http://" ++ rest →
        (∀ a2 rest2, m.proxy = a2 ++ go "http://" ++ rest2 → a.length ≤ a2.length) →
        q = a ++ go "https://" ++ rest) ∧
      (∀ rest, m.proxy = go "http://" ++ rest → q = go "https://" ++ rest) ∧
      ((¬ ∃ a rest, m.proxy = a ++ go "http://" ++ rest) → q = m.proxy) := by
  have hargs := Create.args_of_parsed m u hne (by rw [hparse])
  obtain ⟨out, err, hcall⟩ := Create_first_call os m w _ hargs
  have hnone : (¬ ∃ a rest, m.proxy = a ++ go "http://" ++ rest) →
      strings.Replace m.proxy (go "http://") (go "https://") 1 = m.proxy := by
    intro hno
    apply strings.Replace_of_not_Contains
    unfold strings.Contains
    rw [(strings.Index_eq_none_iff _ _).2 hno]
    rfl
  have hfirst : ∀ a rest, m.proxy = a ++ go "http://" ++ rest →
      (∀ a2 rest2, m.proxy = a2 ++ go "http://" ++ rest2 → a.length ≤ a2.length) →
      strings.Replace m.proxy (go "http://") (go "https://") 1 = a ++ go "https://" ++ rest := by
    intro a rest hs hmin
    cases hi : strings.Index m.proxy (go "http://") with
    | none => exact absurd ⟨a, rest, hs⟩ ((strings.Index_eq_none_iff _ _).1 hi)
    | some i =>
      obtain ⟨a0, rest0, hs0, hlen0, hmin0⟩ := strings.Index_some_spec _ _ i hi
      have hlen : a.length = i := by
        have h1 := hmin a0 rest0 hs0
        have h2 := hmin0 a rest hs
        omega
      exact strings.Replace_first_spec _ _ _ a rest (by decide) (by decide) hs (by rw [hi, hlen])
  refine ⟨out, err, baseArgs m.vmDriver,
    [go "--docker-env", go "no_proxy=" ++ u.Hostname ++ go ",192.168.0.0/16"],
    strings.Replace m.proxy (go "http://") (go "https://") 1, ?_, ?_, hfirst, ?_, hnone⟩
  · rw [hcall, proxyFlags]
    simp
  · cases hi : strings.Index m.proxy (go "http://") with
    | none =>
      have hno := (strings.Index_eq_none_iff _ _).1 hi
      exact Or.inr ⟨hno, hnone hno⟩
    | some i =>
      obtain ⟨a, rest, hs, _, hmin⟩ := strings.Index_some_spec _ _ i hi
      exact Or.inl ⟨a, rest, hs, hmin, hfirst a rest hs hmin⟩
  · intro rest hp
    rw [hp, strings.Replace_http]

/-- Witness of C10 (amended): the proxy `http://example.com:8080` is forwarded as
`https://example.com:8080`, the proxy `https://example.com:8443` unchanged, and the
proxy `xhttp://foo` as `xhttps://foo`. -/
theorem create_https_proxy_flag_witness :
    (∃ out err pre post, (execCalls (Create sampleOS sampleMinikube 0).trace).head?
        = some (.minikubeExec (execEnv sampleOS sampleMinikube 0)
            (pre ++ [go "--docker-env", go "http_proxy=" ++ go "http://example.com:8080",
              go "--docker-env", go "https_proxy=" ++ (go "https://" ++ go "example.com:8080")]
              ++ post) out err)) ∧
    (∃ out err pre post, (execCalls (Create sampleOS
          { sampleMinikube with proxy := go "https://example.com:8443" } 0).trace).head?
        = some (.minikubeExec (execEnv sampleOS sampleMinikube 0)
            (pre ++ [go "--docker-env", go "http_proxy=" ++ go "https://example.com:8443",
              go "--docker-env", go "https_proxy=" ++ go "https://example.com:8443"]
              ++ post) out err)) ∧
    (∃ out err pre post, (execCalls (Create sampleOS
          { sampleMinikube with proxy := go "xhttp://foo" } 0).trace).head?
        = some (.minikubeExec (execEnv sampleOS sampleMinikube 0)
            (pre ++ [go "--docker-env", go "http_proxy=" ++ go "xhttp://foo",
              go "--docker-env", go "https_proxy=" ++ (go "x" ++ go "https://" ++ go "foo")]
              ++ post) out err)) := by
  refine ⟨?_, ?_, ?_⟩
  · obtain ⟨out, err, pre, post, q, hcall, _, _, h1, _⟩ :=
      create_https_proxy_flag sampleOS sampleMinikube 0 sampleURL (by decide) (by decide)
    have hq : q = go "https://" ++ go "example.com:8080" := h1 _ (by decide)
    subst hq
    exact ⟨out, err, pre, post, hcall⟩
  · obtain ⟨out, err, pre, post, q, hcall, _, _, _, h2⟩ :=
      create_https_proxy_flag sampleOS
        { sampleMinikube with proxy := go "https://example.com:8443" } 0
        { Scheme := go "https", Host := go "example.com:8443" } (by decide) (by decide)
    have hq : q = go "https://example.com:8443" :=
      h2 ((strings.Index_eq_none_iff _ _).1 (by decide))
    subst hq
    exact ⟨out, err, pre, post, hcall⟩
  · obtain ⟨out, err, pre, post, q, hcall, _, h3, _, _⟩ :=
      create_https_proxy_flag sampleOS { sampleMinikube with proxy := go "xhttp://foo" } 0
        { Scheme := go "xhttp", Host := go "foo" } (by decide) (by decide)
    have hmin : ∀ a2 rest2, go "xhttp://foo" = a2 ++ go "http://" ++ rest2 →
        (go "x").length ≤ a2.length := by
      intro a2 rest2 h2
      obtain ⟨a, rest, hs, hlen, hm⟩ :=
        strings.Index_some_spec (go "http://") (go "xhttp://foo") 1 (by decide)
      have := hm a2 rest2 h2
      rw [hlen] at this
      exact this
    have hq : q = go "x" ++ go "https://" ++ go "foo" := h3 (go "x") (go "foo") (by decide) hmin
    subst hq
    exact ⟨out, err, pre, post, hcall⟩

end Minikube

end Clusterctl
